import Mathlib

/-!
Verification of the frame-extraction script (`temp_20260228041626.py`).

The script opens a video with `cv2.VideoCapture`, loops on `cap.read()`
writing each decoded frame with `cv2.imwrite` to
`os.path.join(output_folder, "frame_NNNN.png")` (index zero-padded to four
digits), increments `frame_count` once per decoded frame, and finally prints
the count.  We embed the script shallowly: the external video source is
modelled by the list of frames `cap.read` will deliver, and each `imwrite`
call by an environment-chosen outcome (success, failure reported through the
returned boolean — which the script discards — or a raised exception, which
the script does not catch).
-/

namespace FrameExtract

/-- The hardcoded input path constant `video_path` of the script. -/
def video_path : String := "H:\\H_downloads\\github--banner.mp4"

/-- The hardcoded output directory constant `output_folder` of the script. -/
def output_folder : String := "H:\\H_downloads\\allpng"

/-- The output directory as filesystem path components, for the directory
model used by `makedirs`. -/
def outputFolderDirs : List String := ["H:", "H_downloads", "allpng"]

/-- Little-endian base-10 digits of `n`, with explicit fuel so the
definition is structural and evaluates in the kernel.  With fuel at least
`n` this agrees with `Nat.digits 10 n` (see `toDigitsLE_eq_digits`). -/
def toDigitsLE (fuel : ℕ) (n : ℕ) : List ℕ :=
  match fuel, n with
  | 0, _ => []
  | _ + 1, 0 => []
  | f + 1, n + 1 => (n + 1) % 10 :: toDigitsLE f ((n + 1) / 10)

/-- Big-endian decimal digit values of `n`: the digit string Python prints
for a nonnegative integer (`0` renders as the single digit `0`). -/
def decDigits (n : ℕ) : List ℕ :=
  if n = 0 then [0] else (toDigitsLE n n).reverse

/-- The digit-value content of the Python format spec `04d` applied to `n`:
left-pad the decimal digits with zeros to a minimum width of four; wider
numbers are kept whole, never truncated. -/
def pad4Digits (n : ℕ) : List ℕ :=
  List.replicate (4 - (decDigits n).length) 0 ++ decDigits n

/-- Render one decimal digit value as its ASCII character. -/
def digitChar (d : ℕ) : Char := Char.ofNat (48 + d)

/-- The zero-padded numeral substituted into the script's f-string. -/
def pad4 (n : ℕ) : String := String.mk ((pad4Digits n).map digitChar)

/-- The filename the script formats for frame index `n`
(`frame_` + zero-padded index + `.png`). -/
def frameFileName (n : ℕ) : String := "frame_" ++ pad4 n ++ ".png"

/-- `os.path.join` as it behaves on the script's Windows-style directory
argument: directory, separator, filename. -/
def osJoin (dir name : String) : String := dir ++ "\\" ++ name

/-- `output_path` as computed in the loop body for frame index `n`. -/
def outputPath (dir : String) (n : ℕ) : String := osJoin dir (frameFileName n)

/-- Outcome of one `cv2.imwrite` call, chosen by the environment: the write
succeeds, or imwrite reports failure by returning `False` (the script
discards this return value), or imwrite raises an exception (the script has
no handler, so it propagates). -/
inductive WriteOutcome
  | ok
  | retFalse
  | exc
deriving DecidableEq, Repr

/-- State when the `while True` loop stops: the `(frame_count, output_path)`
pairs passed to `imwrite` in order, the paths whose files were actually
created, the final `frame_count`, and whether an exception aborted the
loop. -/
structure RunState where
  writes : List (ℕ × String)
  created : List String
  count : ℕ
  aborted : Bool
deriving DecidableEq, Repr

/-- The script's `while True` loop.  `frames` is the list of frames
`cap.read` still has to deliver (after which it returns `ret = False` and
the loop breaks); `c` is the current `frame_count`; `w` gives the outcome
of the `imwrite` call at each index.  A `retFalse` write is silently
ignored — the script discards imwrite's boolean — while an exception stops
the loop (and the rest of the script) immediately, before the
`frame_count += 1` line. -/
def frameLoop (dir : String) (w : ℕ → WriteOutcome) : List α → ℕ → RunState
  | [], c => ⟨[], [], c, false⟩
  | _ :: fs, c =>
    match w c with
    | .exc => ⟨[(c, outputPath dir c)], [], c, true⟩
    | .ok =>
      let r := frameLoop dir w fs (c + 1)
      ⟨(c, outputPath dir c) :: r.writes, outputPath dir c :: r.created, r.count, r.aborted⟩
    | .retFalse =>
      let r := frameLoop dir w fs (c + 1)
      ⟨(c, outputPath dir c) :: r.writes, r.created, r.count, r.aborted⟩

/-- Result of `cv2.VideoCapture(video_path)`: the constructor never raises;
either the source opened and will deliver a list of frames, or opening
failed. -/
inductive OpenResult (α : Type)
  | opened (frames : List α)
  | failed

/-- The frames `cap.read()` will deliver.  The script never calls
`cap.isOpened()`, and on a capture that failed to open, `cap.read()`
returns `(False, None)` immediately: a failed open delivers no frames. -/
def capFrames : OpenResult α → List α
  | .opened fs => fs
  | .failed => []

/-- Observable result of the part of the script after `os.makedirs`:
write calls, created files, and `reported = some n` exactly when the final
`print` line runs with `frame_count = n` (`none` means an exception
propagated and the script died before printing). -/
structure ScriptResult where
  writes : List (ℕ × String)
  created : List String
  reported : Option ℕ
deriving DecidableEq, Repr

/-- The script from `cap = cv2.VideoCapture(...)` to the final `print`. -/
def script (dir : String) (r : OpenResult α) (w : ℕ → WriteOutcome) : ScriptResult :=
  let st := frameLoop dir w (capFrames r) 0
  ⟨st.writes, st.created, if st.aborted then none else some st.count⟩

/-- A directory tree, as the list of directory paths (component lists) that
currently exist. -/
abbrev DirFS := List (List String)

/-- The nonempty initial segments of a path: every ancestor directory,
innermost last. -/
def ancestorsOf (p : List String) : List (List String) :=
  (List.range p.length).map (fun k => p.take (k + 1))

/-- `os.makedirs(p, exist_ok=b)`: create the directory and every missing
ancestor; with `exist_ok=False` it raises `FileExistsError` when the
directory already exists, with `exist_ok=True` it never fails. -/
def makedirs (fs : DirFS) (p : List String) (exist_ok : Bool) : Except Unit DirFS :=
  if p ∈ fs ∧ exist_ok = false then .error ()
  else .ok (fs ++ (ancestorsOf p).filter (fun q => decide (¬ q ∈ fs)))

/-- The whole script: `os.makedirs(output_folder, exist_ok=True)` followed
by capture, loop and report. -/
def runScript (fs : DirFS) (r : OpenResult α) (w : ℕ → WriteOutcome) :
    Except Unit (DirFS × ScriptResult) :=
  match makedirs fs outputFolderDirs true with
  | .error e => .error e
  | .ok fs2 => .ok (fs2, script output_folder r w)

/-- Proof helper: read a number back off a big-endian digit list by dropping
leading zeros and evaluating the remaining digits in base 10. -/
def unpadNum (l : List ℕ) : ℕ :=
  Nat.ofDigits 10 (List.dropWhile (fun d => d == 0) l).reverse

theorem toDigitsLE_eq_digits : ∀ (fuel n : ℕ), n ≤ fuel →
    toDigitsLE fuel n = Nat.digits 10 n := by
  intro fuel
  induction fuel with
  | zero =>
    intro n hn
    interval_cases n
    simp [toDigitsLE]
  | succ f ih =>
    intro n hn
    cases n with
    | zero => simp [toDigitsLE]
    | succ m =>
      rw [Nat.digits_def' (by norm_num : (1:ℕ) < 10) (Nat.succ_pos m)]
      show (m + 1) % 10 :: toDigitsLE f ((m + 1) / 10) = _
      rw [ih ((m + 1) / 10) ?_]
      have h1 : (m + 1) / 10 < m + 1 := Nat.div_lt_self (Nat.succ_pos m) (by norm_num)
      omega

theorem decDigits_of_ne_zero {n : ℕ} (hn : n ≠ 0) :
    decDigits n = (Nat.digits 10 n).reverse := by
  rw [decDigits, if_neg hn, toDigitsLE_eq_digits n n le_rfl]

/-- Dropping leading zeros ignores a block of zeros prepended to the list. -/
theorem dropWhile_zero_replicate_append (k : ℕ) (l : List ℕ) :
    List.dropWhile (fun d => d == 0) (List.replicate k 0 ++ l) =
      List.dropWhile (fun d => d == 0) l := by
  induction k with
  | zero => simp
  | succ m ih => simp [List.replicate_succ, List.dropWhile_cons, ih]

/-- The canonical decimal digit list of `n` evaluates back to `n`. -/
theorem unpadNum_decDigits (n : ℕ) : unpadNum (decDigits n) = n := by
  by_cases hn : n = 0
  · subst hn
    rfl
  · rw [unpadNum, decDigits_of_ne_zero hn]
    have hne : Nat.digits 10 n ≠ [] := Nat.digits_ne_nil_iff_ne_zero.mpr hn
    have hrevne : (Nat.digits 10 n).reverse ≠ [] := by
      simpa [List.reverse_eq_nil_iff] using hne
    obtain ⟨a, t, hat⟩ := List.exists_cons_of_ne_nil hrevne
    have hsome : (Nat.digits 10 n).getLast? = some a := by
      rw [← List.head?_reverse, hat]
      rfl
    have hhead : a = (Nat.digits 10 n).getLast hne := by
      have h3 := List.getLast?_eq_getLast (Nat.digits 10 n) hne
      rw [hsome] at h3
      exact Option.some.inj h3
    have hlast : (Nat.digits 10 n).getLast hne ≠ 0 :=
      Nat.getLast_digit_ne_zero 10 hn
    have ha : (a == 0) = false := by
      rw [hhead]
      simpa using hlast
    rw [hat, List.dropWhile_cons]
    simp only [ha, Bool.false_eq_true, if_false]
    rw [← hat, List.reverse_reverse]
    exact Nat.ofDigits_digits 10 n

/-- The zero-padded digit list of `n` still evaluates back to `n`. -/
theorem unpadNum_pad4Digits (n : ℕ) : unpadNum (pad4Digits n) = n := by
  rw [pad4Digits, unpadNum, dropWhile_zero_replicate_append, ← unpadNum]
  exact unpadNum_decDigits n

/-- Zero-padding digit lists is injective. -/
theorem pad4Digits_inj {m n : ℕ} (h : pad4Digits m = pad4Digits n) : m = n := by
  have h2 := congrArg unpadNum h
  rwa [unpadNum_pad4Digits, unpadNum_pad4Digits] at h2

/-- Every digit value in the padded list is an actual decimal digit. -/
theorem pad4Digits_lt_ten (n : ℕ) : ∀ d ∈ pad4Digits n, d < 10 := by
  intro d hd
  rcases List.mem_append.1 hd with hd | hd
  · have := List.eq_of_mem_replicate hd
    omega
  · by_cases hn : n = 0
    · subst hn
      simp [decDigits] at hd
      omega
    · rw [decDigits_of_ne_zero hn, List.mem_reverse] at hd
      exact Nat.digits_lt_base (by norm_num) hd

theorem digitChar_toNat : ∀ a : ℕ, a < 10 → (digitChar a).toNat = 48 + a := by
  intro a ha
  interval_cases a <;> rfl

theorem digitChar_inj_lt {a b : ℕ} (ha : a < 10) (hb : b < 10)
    (h : digitChar a = digitChar b) : a = b := by
  have h2 := congrArg Char.toNat h
  rw [digitChar_toNat a ha, digitChar_toNat b hb] at h2
  omega

theorem map_digitChar_inj : ∀ (l1 l2 : List ℕ), (∀ d ∈ l1, d < 10) →
    (∀ d ∈ l2, d < 10) → l1.map digitChar = l2.map digitChar → l1 = l2 := by
  intro l1
  induction l1 with
  | nil =>
    intro l2 _ _ h
    cases l2 with
    | nil => rfl
    | cons b t => simp at h
  | cons a t ih =>
    intro l2 h1 h2 h
    cases l2 with
    | nil => simp at h
    | cons b t2 =>
      simp only [List.map_cons, List.cons.injEq] at h
      have hab : a = b :=
        digitChar_inj_lt (h1 a (by simp)) (h2 b (by simp)) h.1
      have htt : t = t2 :=
        ih t2 (fun d hd => h1 d (by simp [hd])) (fun d hd => h2 d (by simp [hd])) h.2
      rw [hab, htt]

/-- The Python zero-padded numeral is injective over all indices. -/
theorem pad4_inj {m n : ℕ} (h : pad4 m = pad4 n) : m = n := by
  rw [pad4, pad4] at h
  have hdata : (pad4Digits m).map digitChar = (pad4Digits n).map digitChar := by
    injection h
  exact pad4Digits_inj
    (map_digitChar_inj _ _ (pad4Digits_lt_ten m) (pad4Digits_lt_ten n) hdata)

/-- The full filename formatted by the script is injective in the index. -/
theorem frameFileName_inj {m n : ℕ} (h : frameFileName m = frameFileName n) :
    m = n := by
  rw [frameFileName, frameFileName] at h
  have hd := congrArg String.data h
  simp only [String.data_append] at hd
  have h1 := List.append_cancel_right hd
  have h2 := List.append_cancel_left h1
  exact pad4_inj (String.ext h2)

/-- The full output path is injective in the index, for any fixed directory. -/
theorem outputPath_inj (dir : String) {m n : ℕ}
    (h : outputPath dir m = outputPath dir n) : m = n := by
  rw [outputPath, outputPath, osJoin, osJoin] at h
  have hd := congrArg String.data h
  simp only [String.data_append] at hd
  have h1 := List.append_cancel_left hd
  exact frameFileName_inj (String.ext h1)

/-- When no write raises, the loop consumes every frame: it attempts one
write per frame at consecutive indices, ends unaborted, and the counter
advances by exactly the number of frames. -/
theorem frameLoop_no_exc {α : Type} (dir : String) (w : ℕ → WriteOutcome) :
    ∀ (frames : List α) (c : ℕ),
    (∀ i, c ≤ i → i < c + frames.length → w i ≠ WriteOutcome.exc) →
    (frameLoop dir w frames c).writes =
        (List.range' c frames.length).map (fun j => (j, outputPath dir j)) ∧
      (frameLoop dir w frames c).count = c + frames.length ∧
      (frameLoop dir w frames c).aborted = false := by
  intro frames
  induction frames with
  | nil =>
    intro c _
    simp [frameLoop]
  | cons f fs ih =>
    intro c h
    have hc : w c ≠ WriteOutcome.exc := h c le_rfl (by simp)
    have hnext : ∀ i, c + 1 ≤ i → i < c + 1 + fs.length → w i ≠ WriteOutcome.exc := by
      intro i h1 h2
      refine h i (by omega) (by simp; omega)
    obtain ⟨ih1, ih2, ih3⟩ := ih (c + 1) hnext
    cases hw : w c with
    | exc => exact absurd hw hc
    | ok =>
      simp only [frameLoop, hw, List.length_cons, List.range'_succ, List.map_cons]
      exact ⟨by rw [ih1], by rw [ih2]; omega, ih3⟩
    | retFalse =>
      simp only [frameLoop, hw, List.length_cons, List.range'_succ, List.map_cons]
      exact ⟨by rw [ih1], by rw [ih2]; omega, ih3⟩

/-- When additionally every write succeeds, one file is created per frame,
in index order. -/
theorem frameLoop_all_ok {α : Type} (dir : String) (w : ℕ → WriteOutcome) :
    ∀ (frames : List α) (c : ℕ),
    (∀ i, c ≤ i → i < c + frames.length → w i = WriteOutcome.ok) →
    (frameLoop dir w frames c).created =
      (List.range' c frames.length).map (outputPath dir) := by
  intro frames
  induction frames with
  | nil =>
    intro c _
    simp [frameLoop]
  | cons f fs ih =>
    intro c h
    have hc : w c = WriteOutcome.ok := h c le_rfl (by simp)
    have hnext : ∀ i, c + 1 ≤ i → i < c + 1 + fs.length → w i = WriteOutcome.ok := by
      intro i h1 h2
      refine h i (by omega) (by simp; omega)
    simp only [frameLoop, hc, List.length_cons, List.range'_succ, List.map_cons]
    rw [ih (c + 1) hnext]

/-- Whatever the write outcomes, the attempted writes are exactly the
consecutive indices starting at the initial counter value, paired with the
formatted path; the counter ends one past the last attempt index when the
loop was aborted, and equal to the attempt count plus the start otherwise. -/
theorem frameLoop_writes_spec {α : Type} (dir : String) (w : ℕ → WriteOutcome) :
    ∀ (frames : List α) (c : ℕ), ∃ m, m ≤ frames.length ∧
    (frameLoop dir w frames c).writes =
        (List.range' c m).map (fun j => (j, outputPath dir j)) ∧
    (((frameLoop dir w frames c).aborted = false ∧
        (frameLoop dir w frames c).count = c + m) ∨
      ((frameLoop dir w frames c).aborted = true ∧ 1 ≤ m ∧
        (frameLoop dir w frames c).count + 1 = c + m)) := by
  intro frames
  induction frames with
  | nil =>
    intro c
    exact ⟨0, by simp [frameLoop]⟩
  | cons f fs ih =>
    intro c
    cases hw : w c with
    | exc =>
      refine ⟨1, by simp, ?_, ?_⟩
      · simp [frameLoop, hw, List.range'_succ]
      · right
        simp [frameLoop, hw]
    | ok =>
      obtain ⟨m, hm, h1, h2⟩ := ih (c + 1)
      refine ⟨m + 1, by simp; omega, ?_, ?_⟩
      · simp only [frameLoop, hw, List.range'_succ, List.map_cons]
        rw [h1]
      · rcases h2 with ⟨ha, hc2⟩ | ⟨ha, hm1, hc2⟩
        · left
          simp only [frameLoop, hw]
          exact ⟨ha, by rw [hc2]; omega⟩
        · right
          simp only [frameLoop, hw]
          exact ⟨ha, by omega, by rw [hc2]; omega⟩
    | retFalse =>
      obtain ⟨m, hm, h1, h2⟩ := ih (c + 1)
      refine ⟨m + 1, by simp; omega, ?_, ?_⟩
      · simp only [frameLoop, hw, List.range'_succ, List.map_cons]
        rw [h1]
      · rcases h2 with ⟨ha, hc2⟩ | ⟨ha, hm1, hc2⟩
        · left
          simp only [frameLoop, hw]
          exact ⟨ha, by rw [hc2]; omega⟩
        · right
          simp only [frameLoop, hw]
          exact ⟨ha, by omega, by rw [hc2]; omega⟩

/-- If the write at index `k` raises while all earlier writes do not, the
loop aborts right there: the last attempt is at index `k`, the counter
stays at `k`, and every file created came from an earlier index. -/
theorem frameLoop_exc {α : Type} (dir : String) (w : ℕ → WriteOutcome) :
    ∀ (frames : List α) (c k : ℕ), c ≤ k → k < c + frames.length →
    (∀ i, c ≤ i → i < k → w i ≠ WriteOutcome.exc) → w k = WriteOutcome.exc →
    (frameLoop dir w frames c).aborted = true ∧
      (frameLoop dir w frames c).count = k ∧
      (frameLoop dir w frames c).writes.length = k - c + 1 ∧
      (∀ p ∈ (frameLoop dir w frames c).created,
        ∃ j, c ≤ j ∧ j < k ∧ p = outputPath dir j) := by
  intro frames
  induction frames with
  | nil =>
    intro c k h1 h2 _ _
    simp at h2
    omega
  | cons f fs ih =>
    intro c k h1 h2 hpre hk
    rcases Nat.eq_or_lt_of_le h1 with hck | hck
    · subst hck
      simp [frameLoop, hk]
    · have hc : w c ≠ WriteOutcome.exc := hpre c le_rfl hck
      have hargs : k < c + 1 + fs.length := by
        simp at h2
        omega
      have hpre2 : ∀ i, c + 1 ≤ i → i < k → w i ≠ WriteOutcome.exc := by
        intro i hi1 hi2
        exact hpre i (by omega) hi2
      obtain ⟨ih1, ih2, ih3, ih4⟩ := ih (c + 1) k hck hargs hpre2 hk
      cases hw : w c with
      | exc => exact absurd hw hc
      | ok =>
        simp only [frameLoop, hw, List.length_cons]
        refine ⟨ih1, ih2, by rw [ih3]; omega, ?_⟩
        intro p hp
        rcases List.mem_cons.1 hp with hp | hp
        · exact ⟨c, le_rfl, hck, hp⟩
        · obtain ⟨j, hj1, hj2, hj3⟩ := ih4 p hp
          exact ⟨j, by omega, hj2, hj3⟩
      | retFalse =>
        simp only [frameLoop, hw, List.length_cons]
        refine ⟨ih1, ih2, by rw [ih3]; omega, ?_⟩
        intro p hp
        obtain ⟨j, hj1, hj2, hj3⟩ := ih4 p hp
        exact ⟨j, by omega, hj2, hj3⟩

/-- The loop never looks inside a frame: two frame lists of equal length
drive it to identical states. -/
theorem frameLoop_content_blind {α β : Type} (dir : String) (w : ℕ → WriteOutcome) :
    ∀ (f1 : List α) (f2 : List β) (c : ℕ), f1.length = f2.length →
    frameLoop dir w f1 c = frameLoop dir w f2 c := by
  intro f1
  induction f1 with
  | nil =>
    intro f2 c h
    cases f2 with
    | nil => rfl
    | cons b t => simp at h
  | cons a t ih =>
    intro f2 c h
    cases f2 with
    | nil => simp at h
    | cons b t2 =>
      simp only [List.length_cons, Nat.add_right_cancel_iff] at h
      cases hw : w c with
      | exc => simp [frameLoop, hw]
      | ok => simp [frameLoop, hw, ih t2 (c + 1) h]
      | retFalse => simp [frameLoop, hw, ih t2 (c + 1) h]

/-- With `exist_ok=True`, `makedirs` always succeeds, returning the old
tree extended by the missing ancestors of the requested path. -/
theorem makedirs_true_ok (fs : DirFS) (p : List String) :
    makedirs fs p true =
      Except.ok (fs ++ (ancestorsOf p).filter (fun q => decide (¬ q ∈ fs))) := by
  simp [makedirs]

/-- After one `exist_ok=True` call, every ancestor of the path exists. -/
theorem makedirs_true_mem (fs : DirFS) (p : List String) :
    ∀ q ∈ ancestorsOf p,
      q ∈ fs ++ (ancestorsOf p).filter (fun q => decide (¬ q ∈ fs)) := by
  intro q hq
  by_cases h : q ∈ fs
  · exact List.mem_append.2 (Or.inl h)
  · refine List.mem_append.2 (Or.inr ?_)
    rw [List.mem_filter]
    exact ⟨hq, by simp [h]⟩

/-- A second `exist_ok=True` call on the resulting tree is a successful
no-op. -/
theorem makedirs_true_idem (fs : DirFS) (p : List String) :
    makedirs (fs ++ (ancestorsOf p).filter (fun q => decide (¬ q ∈ fs))) p true =
      Except.ok (fs ++ (ancestorsOf p).filter (fun q => decide (¬ q ∈ fs))) := by
  rw [makedirs_true_ok]
  have hnil : (ancestorsOf p).filter
      (fun q => decide (¬ q ∈ fs ++ (ancestorsOf p).filter (fun q => decide (¬ q ∈ fs)))) = [] := by
    rw [List.filter_eq_nil_iff]
    intro q hq
    have := makedirs_true_mem fs p q hq
    simp only [decide_eq_true_eq, Decidable.not_not]
    exact this
  rw [hnil, List.append_nil]

/-- C1: for a video source yielding exactly N decodable frames (and writes
that succeed, the normal case), the extractor performs exactly N image
writes, creates one output file per frame, and the reported final count
equals N. -/
theorem claim_C1_count_correctness {α : Type} (frames : List α)
    (w : ℕ → WriteOutcome) (dir : String)
    (h : ∀ i, i < frames.length → w i = WriteOutcome.ok) :
    (script dir (OpenResult.opened frames) w).writes.length = frames.length ∧
      (script dir (OpenResult.opened frames) w).created.length = frames.length ∧
      (script dir (OpenResult.opened frames) w).reported = some frames.length := by
  have hno : ∀ i, 0 ≤ i → i < 0 + frames.length → w i ≠ WriteOutcome.exc := by
    intro i _ hi
    rw [h i (by omega)]
    intro hcontra
    cases hcontra
  obtain ⟨h1, h2, h3⟩ := frameLoop_no_exc dir w frames 0 hno
  have hcr := frameLoop_all_ok dir w frames 0 (fun i _ hi => h i (by omega))
  simp only [script, capFrames]
  refine ⟨?_, ?_, ?_⟩
  · rw [h1, List.length_map, List.length_range']
  · rw [hcr, List.length_map, List.length_range']
  · rw [h3, h2]
    simp

/-- C1 witness: a three-frame source with succeeding writes produces three
write attempts, three files and a reported count of three. -/
theorem claim_C1_count_correctness_witness :
    (∀ i, i < ([10, 20, 30] : List ℕ).length →
        (fun _ : ℕ => WriteOutcome.ok) i = WriteOutcome.ok) ∧
      ((script output_folder (OpenResult.opened ([10, 20, 30] : List ℕ))
            (fun _ => WriteOutcome.ok)).writes.length = ([10, 20, 30] : List ℕ).length ∧
        (script output_folder (OpenResult.opened ([10, 20, 30] : List ℕ))
            (fun _ => WriteOutcome.ok)).created.length = ([10, 20, 30] : List ℕ).length ∧
        (script output_folder (OpenResult.opened ([10, 20, 30] : List ℕ))
            (fun _ => WriteOutcome.ok)).reported = some ([10, 20, 30] : List ℕ).length) :=
  ⟨fun _ _ => rfl,
    claim_C1_count_correctness ([10, 20, 30] : List ℕ) (fun _ => WriteOutcome.ok)
      output_folder (fun _ _ => rfl)⟩

/-- C2 counterexample: the script never checks `cap.isOpened()`, and
`cv2.VideoCapture` does not raise on a bad path, so on a source that fails
to open the run completes successfully — the directory is created, no file
is written, and the final print reports a count of 0 — instead of
terminating abnormally with a source-open failure signal as the claim
states. -/
theorem claim_C2_counterexample :
    runScript ([] : DirFS) (OpenResult.failed (α := ℕ)) (fun _ => WriteOutcome.ok) =
      Except.ok ([["H:"], ["H:", "H_downloads"], ["H:", "H_downloads", "allpng"]],
        ⟨[], [], some 0⟩) := by
  rfl

/-- C2 amended: if the video source cannot be opened, the run nevertheless
completes successfully: the output directory is created, no output file is
written, and the script reports a count of 0 — indistinguishable from a
zero-frame video. -/
theorem claim_C2_amended_open_failure_silent (fs : DirFS) (w : ℕ → WriteOutcome) :
    ∃ fs2 : DirFS,
      runScript fs (OpenResult.failed (α := ℕ)) w =
          Except.ok (fs2, ⟨[], [], some 0⟩) ∧
        outputFolderDirs ∈ fs2 := by
  refine ⟨fs ++ (ancestorsOf outputFolderDirs).filter (fun q => decide (¬ q ∈ fs)),
    ?_, ?_⟩
  · simp only [runScript, makedirs_true_ok]
    rfl
  · refine makedirs_true_mem fs outputFolderDirs outputFolderDirs ?_
    decide

/-- C3 counterexample: the script discards `cv2.imwrite`'s boolean result,
so a write failure reported through a `False` return (the unwritable
destination / disk-full mode) does not abort the run: with two frames and
the first write failing this way, a second frame is still decoded and
written, and the run completes reporting 2. -/
theorem claim_C3_counterexample :
    (script output_folder (OpenResult.opened ([10, 20] : List ℕ))
        (fun i => if i = 0 then WriteOutcome.retFalse else WriteOutcome.ok)).writes.length = 2 ∧
      (script output_folder (OpenResult.opened ([10, 20] : List ℕ))
        (fun i => if i = 0 then WriteOutcome.retFalse else WriteOutcome.ok)).reported = some 2 := by
  exact ⟨rfl, rfl⟩

/-- C3 amended: only an exception raised by `cv2.imwrite` propagates and
aborts the run (the script has no handler): no further frame is decoded or
written after the raising write, the final print never runs, and the files
created earlier remain; a failure that `imwrite` reports by returning
`False` is silently ignored and the run continues. -/
theorem claim_C3_amended_exc_aborts {α : Type} (frames : List α)
    (w : ℕ → WriteOutcome) (dir : String) (k : ℕ)
    (hk : k < frames.length)
    (hpre : ∀ i, i < k → w i ≠ WriteOutcome.exc)
    (hexc : w k = WriteOutcome.exc) :
    (script dir (OpenResult.opened frames) w).reported = none ∧
      (script dir (OpenResult.opened frames) w).writes.length = k + 1 ∧
      (∀ p ∈ (script dir (OpenResult.opened frames) w).created,
        ∃ j, j < k ∧ p = outputPath dir j) := by
  obtain ⟨h1, h2, h3, h4⟩ := frameLoop_exc dir w frames 0 k (by omega) (by omega)
    (fun i _ hi => hpre i hi) hexc
  simp only [script, capFrames]
  refine ⟨?_, ?_, ?_⟩
  · rw [h1]
    simp
  · omega
  · intro p hp
    obtain ⟨j, _, hj2, hj3⟩ := h4 p hp
    exact ⟨j, hj2, hj3⟩

/-- C3 amended witness: three frames with the write at index 1 raising; the
run dies before printing, having attempted exactly two writes, and every
created file has index below 1. -/
theorem claim_C3_amended_exc_aborts_witness :
    (1 < ([5, 6, 7] : List ℕ).length ∧
        (∀ i, i < 1 → (fun i => if i = 1 then WriteOutcome.exc else WriteOutcome.ok) i ≠
          WriteOutcome.exc) ∧
        (fun i => if i = 1 then WriteOutcome.exc else WriteOutcome.ok) 1 =
          WriteOutcome.exc) ∧
      ((script output_folder (OpenResult.opened ([5, 6, 7] : List ℕ))
            (fun i => if i = 1 then WriteOutcome.exc else WriteOutcome.ok)).reported = none ∧
        (script output_folder (OpenResult.opened ([5, 6, 7] : List ℕ))
            (fun i => if i = 1 then WriteOutcome.exc else WriteOutcome.ok)).writes.length = 1 + 1 ∧
        (∀ p ∈ (script output_folder (OpenResult.opened ([5, 6, 7] : List ℕ))
            (fun i => if i = 1 then WriteOutcome.exc else WriteOutcome.ok)).created,
          ∃ j, j < 1 ∧ p = outputPath output_folder j)) :=
  ⟨⟨by decide, by decide, by decide⟩,
    claim_C3_amended_exc_aborts ([5, 6, 7] : List ℕ)
      (fun i => if i = 1 then WriteOutcome.exc else WriteOutcome.ok) output_folder 1
      (by decide) (by decide) (by decide)⟩

/-- C4: the frame decoded i-th (zero-based) is written to the filename
obtained by joining the output directory with `frame_`, the index
zero-padded to four digits, and `.png`: the i-th imwrite call of the run
carries frame index i and exactly that path. -/
theorem claim_C4_order_preservation {α : Type} (frames : List α)
    (w : ℕ → WriteOutcome) (dir : String) (i : ℕ)
    (hi : i < (script dir (OpenResult.opened frames) w).writes.length) :
    (script dir (OpenResult.opened frames) w).writes[i]? =
      some (i, osJoin dir ("frame_" ++ pad4 i ++ ".png")) := by
  obtain ⟨m, _, h1, _⟩ := frameLoop_writes_spec dir w frames 0
  simp only [script, capFrames] at hi ⊢
  rw [h1] at hi ⊢
  rw [List.length_map, List.length_range'] at hi
  rw [List.getElem?_eq_getElem (by rw [List.length_map, List.length_range']; exact hi)]
  simp only [List.getElem_map, List.getElem_range', Nat.zero_add, Nat.one_mul]
  rfl

/-- C4 witness: in a three-frame all-successful run, the write at position 1
carries index 1 and the path joining the directory with `frame_0001.png`. -/
theorem claim_C4_order_preservation_witness :
    1 < (script output_folder (OpenResult.opened ([7, 8, 9] : List ℕ))
          (fun _ => WriteOutcome.ok)).writes.length ∧
      (script output_folder (OpenResult.opened ([7, 8, 9] : List ℕ))
          (fun _ => WriteOutcome.ok)).writes[1]? =
        some (1, osJoin output_folder ("frame_" ++ pad4 1 ++ ".png")) :=
  ⟨by decide,
    claim_C4_order_preservation ([7, 8, 9] : List ℕ) (fun _ => WriteOutcome.ok)
      output_folder 1 (by decide)⟩

/-- C5: the naming function is injective over the indices of a run: for all
i ≠ j below N, the filenames generated for frames i and j differ. -/
theorem claim_C5_naming_injectivity (dir : String) (N i j : ℕ)
    (hi : i < N) (hj : j < N) (hne : i ≠ j) :
    outputPath dir i ≠ outputPath dir j := by
  intro h
  exact hne (outputPath_inj dir h)

/-- C5 witness: frames 0 and 1 of a two-frame run get distinct paths. -/
theorem claim_C5_naming_injectivity_witness :
    0 < 2 ∧ 1 < 2 ∧ (0 : ℕ) ≠ 1 ∧
      outputPath output_folder 0 ≠ outputPath output_folder 1 :=
  ⟨by decide, by decide, by decide,
    claim_C5_naming_injectivity output_folder 2 0 1 (by decide) (by decide) (by decide)⟩

/-- C6: a source that opens but yields zero decodable frames is not an
error: the run completes, the output directory is created, zero files are
written, and the reported count is 0. -/
theorem claim_C6_zero_frames (fs : DirFS) (w : ℕ → WriteOutcome) :
    ∃ fs2 : DirFS,
      runScript fs (OpenResult.opened ([] : List ℕ)) w =
          Except.ok (fs2, ⟨[], [], some 0⟩) ∧
        outputFolderDirs ∈ fs2 := by
  refine ⟨fs ++ (ancestorsOf outputFolderDirs).filter (fun q => decide (¬ q ∈ fs)),
    ?_, ?_⟩
  · simp only [runScript, makedirs_true_ok]
    rfl
  · refine makedirs_true_mem fs outputFolderDirs outputFolderDirs ?_
    decide

/-- C7: directory creation is idempotent: the script's
`os.makedirs(..., exist_ok=True)` call succeeds against a tree in which the
output directory already exists, and a second full run against the
resulting tree succeeds again without changing it. -/
theorem claim_C7_idempotent_makedirs (fs : DirFS) (r : OpenResult ℕ)
    (w : ℕ → WriteOutcome) (hpre : outputFolderDirs ∈ fs) :
    ∃ (fs2 : DirFS) (res : ScriptResult),
      runScript fs r w = Except.ok (fs2, res) ∧
        runScript fs2 r w = Except.ok (fs2, res) := by
  refine ⟨fs ++ (ancestorsOf outputFolderDirs).filter (fun q => decide (¬ q ∈ fs)),
    script output_folder r w, ?_, ?_⟩
  · simp only [runScript, makedirs_true_ok]
  · simp only [runScript, makedirs_true_idem]

/-- C7 witness: with the output directory and its ancestors pre-existing,
two consecutive runs both succeed on directory creation. -/
theorem claim_C7_idempotent_makedirs_witness :
    outputFolderDirs ∈
        ([["H:"], ["H:", "H_downloads"], ["H:", "H_downloads", "allpng"]] : DirFS) ∧
      ∃ (fs2 : DirFS) (res : ScriptResult),
        runScript ([["H:"], ["H:", "H_downloads"], ["H:", "H_downloads", "allpng"]] : DirFS)
            (OpenResult.opened ([1, 2] : List ℕ)) (fun _ => WriteOutcome.ok) =
          Except.ok (fs2, res) ∧
          runScript fs2 (OpenResult.opened ([1, 2] : List ℕ)) (fun _ => WriteOutcome.ok) =
            Except.ok (fs2, res) :=
  ⟨by decide,
    claim_C7_idempotent_makedirs
      ([["H:"], ["H:", "H_downloads"], ["H:", "H_downloads", "allpng"]] : DirFS)
      (OpenResult.opened ([1, 2] : List ℕ)) (fun _ => WriteOutcome.ok) (by decide)⟩

/-- C8: the frame counter is an invariant counter: the indices it hands to
the write calls of a run are exactly 0, 1, 2, ... in order (it starts at 0
and is incremented exactly once per decoded frame, hence is monotonically
increasing), and the final count it reports equals the number of decoded
frames: the number of write attempts in a clean run, one fewer when an
exception cut the run at the failing write. -/
theorem claim_C8_counter_invariant {α : Type} (frames : List α)
    (w : ℕ → WriteOutcome) (dir : String) :
    (frameLoop dir w frames 0).writes.map Prod.fst =
        List.range (frameLoop dir w frames 0).writes.length ∧
      ((frameLoop dir w frames 0).aborted = false →
        (frameLoop dir w frames 0).count = (frameLoop dir w frames 0).writes.length) ∧
      ((frameLoop dir w frames 0).aborted = true →
        (frameLoop dir w frames 0).count + 1 = (frameLoop dir w frames 0).writes.length) := by
  obtain ⟨m, _, h1, h2⟩ := frameLoop_writes_spec dir w frames 0
  have hlen : (frameLoop dir w frames 0).writes.length = m := by
    rw [h1, List.length_map, List.length_range']
  refine ⟨?_, ?_, ?_⟩
  · rw [h1, List.length_map, List.length_range', List.map_map, List.range_eq_range']
    have : (Prod.fst ∘ fun j => (j, outputPath dir j)) = id := rfl
    rw [this, List.map_id]
  · intro hab
    rcases h2 with ⟨_, hc⟩ | ⟨hab2, _, _⟩
    · rw [hlen, hc]
      omega
    · rw [hab] at hab2
      cases hab2
  · intro hab
    rcases h2 with ⟨hab2, _⟩ | ⟨_, _, hc⟩
    · rw [hab] at hab2
      cases hab2
    · rw [hlen, hc]
      omega

/-- C8 witness: a clean two-frame run hands out indices `[0, 1]` and ends
with the counter equal to the number of writes. -/
theorem claim_C8_counter_invariant_witness :
    (frameLoop output_folder (fun _ => WriteOutcome.ok) ([1, 2] : List ℕ) 0).aborted = false ∧
      (frameLoop output_folder (fun _ => WriteOutcome.ok) ([1, 2] : List ℕ) 0).count =
        (frameLoop output_folder (fun _ => WriteOutcome.ok) ([1, 2] : List ℕ) 0).writes.length :=
  ⟨by decide,
    (claim_C8_counter_invariant ([1, 2] : List ℕ) (fun _ => WriteOutcome.ok)
      output_folder).2.1 (by decide)⟩

/-- C9: the formatter pads to a minimum of four digits and never truncates:
for indices at and above 10000 it emits the full decimal digit string with
no padding, the digit string faithfully represents the index (reading the
digits back in base 10 recovers it), and consequently the naming function
is injective over all nonnegative indices, not only below 10000. -/
theorem claim_C9_padding_no_truncation :
    (∀ m n : ℕ, pad4 m = pad4 n → m = n) ∧
      (∀ n : ℕ, 10000 ≤ n →
        pad4 n = String.mk ((decDigits n).map digitChar)) ∧
      (∀ n : ℕ, Nat.ofDigits 10 (decDigits n).reverse = n) := by
  refine ⟨fun m n h => pad4_inj h, ?_, ?_⟩
  · intro n hn
    have hn0 : n ≠ 0 := by omega
    have hlen : 5 ≤ (decDigits n).length := by
      rw [decDigits_of_ne_zero hn0, List.length_reverse,
        Nat.digits_len 10 n (by norm_num) hn0]
      have : 4 ≤ Nat.log 10 n :=
        (Nat.pow_le_iff_le_log (by norm_num) hn0).1 (by omega)
      omega
    rw [pad4, pad4Digits]
    have h4 : 4 - (decDigits n).length = 0 := by omega
    rw [h4, List.replicate_zero, List.nil_append]
  · intro n
    by_cases hn : n = 0
    · subst hn
      rfl
    · rw [decDigits_of_ne_zero hn, List.reverse_reverse]
      exact Nat.ofDigits_digits 10 n

/-- C9 witness: index 10000 is rendered as the unpadded five-digit string
`10000`, and its digit string reads back to 10000. -/
theorem claim_C9_padding_no_truncation_witness :
    (10000 ≤ 10000 ∧
        pad4 10000 = String.mk ((decDigits 10000).map digitChar)) ∧
      Nat.ofDigits 10 (decDigits 10000).reverse = 10000 :=
  ⟨⟨by decide, claim_C9_padding_no_truncation.2.1 10000 (by decide)⟩,
    claim_C9_padding_no_truncation.2.2 10000⟩

/-- C10: the extractor is deterministic and content-blind: any two runs
whose sources deliver the same sequence of decode outcomes (the same
number of successful reads before the failing one, whatever the pixel
data) and whose writes behave the same produce identical write sequences,
identical created-file lists and identical reported counts. -/
theorem claim_C10_deterministic {α β : Type} (r1 : OpenResult α)
    (r2 : OpenResult β) (w : ℕ → WriteOutcome) (dir : String)
    (h : (capFrames r1).length = (capFrames r2).length) :
    script dir r1 w = script dir r2 w := by
  simp only [script]
  rw [frameLoop_content_blind dir w (capFrames r1) (capFrames r2) 0 h]

/-- C10 witness: a two-frame numeric source and a two-frame boolean source
drive the script to the same result. -/
theorem claim_C10_deterministic_witness :
    (capFrames (OpenResult.opened ([1, 2] : List ℕ))).length =
        (capFrames (OpenResult.opened ([true, false] : List Bool))).length ∧
      script output_folder (OpenResult.opened ([1, 2] : List ℕ)) (fun _ => WriteOutcome.ok) =
        script output_folder (OpenResult.opened ([true, false] : List Bool))
          (fun _ => WriteOutcome.ok) :=
  ⟨by decide,
    claim_C10_deterministic (OpenResult.opened ([1, 2] : List ℕ))
      (OpenResult.opened ([true, false] : List Bool)) (fun _ => WriteOutcome.ok)
      output_folder (by decide)⟩

end FrameExtract
